import Mathlib

/-!
Verification of the joystick device layer of the stick repository
(src/devices.rs and src/ffi/linux.rs), as a shallow embedding.

Machine integers (i32, i16, u32) are embedded as Int or Nat.  Rust
division truncates toward zero and panics on a zero divisor, so it is
embedded as an Option-valued wrapper around Int.tdiv.  The arithmetic
right shift on a signed integer is floor division by a power of two,
which for the positive divisors 2 and 4 coincides with Int.ediv, the
meaning of the / notation on Int.  The f32 axis values written by the
decoder are always of the form z / 127.0 or z / 255.0 for an integer z
with 0 <= z.natAbs <= 255; on that grid the f32 rounding map is
injective and monotone and fixes -1.0, 0.0 and 1.0, so those stored
floats are modelled by the exact rationals z / 127 and z / 255.
Overflow of an i32 operation is modelled with release semantics: every
addition, subtraction and multiplication that can leave the i32 range
is reduced by wrap32 into [-2^31, 2^31), and the one division that
overflows (INT32_MIN / -1) panics like the zero divisor.  A debug build
panics where a wrap occurs; the bounded theorems below restrict
calibrations and raw values so that no intermediate wraps, and on that
domain the two profiles agree with each other and with the model.
-/

/-- Reduction of an integer into the i32 range, the release-mode
two-complement wrap of an overflowing i32 operation. -/
def wrap32 (x : Int) : Int := (x + 2 ^ 31) % 2 ^ 32 - 2 ^ 31

/-- Rust integer division on i32: truncation toward zero, panic (None)
on a zero divisor and on the overflowing quotient INT32_MIN / -1; both
panics happen in debug and release builds alike. -/
def rdiv (a b : Int) : Option Int :=
  if b = 0 ∨ (a = -(2 ^ 31) ∧ b = -1) then none else some (Int.tdiv a b)

/-- From src/devices.rs, fn deadzone (lines 537-555): the shifts
`range >> 1` and `halfr >> 2` are floor divisions by 2 and 4 and cannot
overflow, every i32 addition and subtraction wraps.  The final
`(range >> 1) - deadz` stays within 2^30 + 2^28 of zero for i32
operands and needs no wrap. -/
def deadzone (mn mx val : Int) : Int × Int :=
  let range := wrap32 (mx - mn)
  let halfr := range / 2
  let deadz := halfr / 4
  let midpt := wrap32 (mn + halfr)
  let value := wrap32 (val - midpt)
  let value :=
    if value < deadz then (if value > -deadz then 0 else wrap32 (value + deadz))
    else wrap32 (value - deadz)
  (value, range / 2 - deadz)

/-- From src/devices.rs, fn transform (lines 557-561): the clamped
integer quotient `((value * 127) / full).max(-127).min(127)` before the
final division by 127.0; the i32 product `value * 127` wraps. -/
def transformZ (mn mx val : Int) : Option Int :=
  (rdiv (wrap32 ((deadzone mn mx val).1 * 127)) (deadzone mn mx val).2).map
    (fun q => min 127 (max (-127) q))

/-- The decoded f32 of fn transform, as the exact rational z / 127. -/
def transform (mn mx val : Int) : Option ℚ :=
  (transformZ mn mx val).map (fun (z : Int) => (z : ℚ) / 127)

/-- From src/devices.rs, fn transform2 (lines 563-566): the clamped
integer quotient `((val * 255) / (max - min)).max(0).min(255)` before
the final division by 255.0; the i32 product `val * 255` and the i32
difference `max - min` wrap. -/
def transform2Z (mn mx val : Int) : Option Int :=
  (rdiv (wrap32 (val * 255)) (wrap32 (mx - mn))).map
    (fun q => min 255 (max 0 q))

/-- The decoded f32 of fn transform2, as the exact rational z / 255. -/
def transform2 (mn mx val : Int) : Option ℚ :=
  (transform2Z mn mx val).map (fun (z : Int) => (z : ℚ) / 255)

/-- The midpoint `min + halfr` computed inside fn deadzone. -/
def midpointOf (mn mx : Int) : Int := mn + (mx - mn) / 2

/-- The raw values forced to zero by fn deadzone: the centered value is
strictly inside (-deadz, deadz) with deadz = ((max - min) / 2) / 4. -/
def inDeadBand (mn mx val : Int) : Prop :=
  -((mx - mn) / 2 / 4) < val - midpointOf mn mx ∧
    val - midpointOf mn mx < (mx - mn) / 2 / 4

instance (mn mx val : Int) : Decidable (inDeadBand mn mx val) := by
  unfold inDeadBand; infer_instance

/-- Hardware identifier of the XBOX pad whose A and B roles are swapped
(src/devices.rs lines 367-381). -/
def xboxId : Nat := 0x0E6F0501

/-- Hardware identifier of the PS3 pad whose X and Y roles are swapped
(src/devices.rs lines 383-397). -/
def ps3Id : Nat := 0x054C0268

/-- Hardware identifier of the GameCube adapter with trimmed calibration
and permuted secondary-stick and trigger axis codes. -/
def gcId : Nat := 0x00791844

/-- Hardware identifier of the flight controller without a camera stick
(src/devices.rs lines 167-176). -/
def flightId : Nat := 0x07B50316

/-- The Btn enum of src/devices.rs (lines 29-65). -/
inductive Btn where
  | Left | Right | Up | Down
  | X | A | Y | B
  | L | R | W | Z
  | F | E | D | C
deriving DecidableEq

/-- The u8 discriminant of each Btn variant. -/
def Btn.code : Btn → Nat
  | .Left => 0 | .Right => 1 | .Up => 2 | .Down => 3
  | .X => 4 | .A => 5 | .Y => 6 | .B => 7
  | .L => 8 | .R => 9 | .W => 10 | .Z => 11
  | .F => 12 | .E => 13 | .D => 14 | .C => 15

/-- The state of one device slot (struct Device, src/devices.rs lines
75-94).  The six atomic f32 axis cells are modelled by their exact
rational values and the u32 button bitmask by a Nat. -/
structure Device where
  hardware_id : Nat
  abs_min : Int
  abs_max : Int
  joyx : ℚ
  joyy : ℚ
  camx : ℚ
  camy : ℚ
  trgl : ℚ
  trgr : ℚ
  btns : Nat
  plug : Bool
deriving DecidableEq

/-- One raw evdev record (struct Event, src/devices.rs lines 14-20).
The timestamp pair is ignored by the decoder and omitted. -/
structure EventRec where
  ev_type : Int
  ev_code : Int
  ev_value : Int
deriving DecidableEq

/-- The all-ones mask of a u32; Rust `!(1u32 << b)` is mask32 ^^^ (1 <<< b). -/
def mask32 : Nat := 2 ^ 32 - 1

/-- One button-bit update of the u32 bitmask: the fetch_or of fn edit
when pressed, the fetch_and with the complemented bit when released
(src/devices.rs lines 358-364). -/
def applyBit (is : Bool) (b : Nat) (n : Nat) : Nat :=
  if is then n ||| (1 <<< b) else n &&& (mask32 ^^^ (1 <<< b))

/-- fn edit of joystick_poll_event: set or clear one button bit. -/
def editBtn (is : Bool) (d : Device) (b : Btn) : Device :=
  { d with btns := applyBit is b.code d.btns }

/-- The quirk-corrected A button (src/devices.rs lines 367-373). -/
def btnForA (hw : Nat) : Btn := if hw = xboxId then Btn.B else Btn.A

/-- The quirk-corrected B button (src/devices.rs lines 375-381). -/
def btnForB (hw : Nat) : Btn := if hw = xboxId then Btn.A else Btn.B

/-- The quirk-corrected X button (src/devices.rs lines 383-389). -/
def btnForX (hw : Nat) : Btn := if hw = ps3Id then Btn.Y else Btn.X

/-- The quirk-corrected Y button (src/devices.rs lines 391-397). -/
def btnForY (hw : Nat) : Btn := if hw = ps3Id then Btn.X else Btn.Y

/-- The button table of the 0x01 branch of joystick_poll_event
(src/devices.rs lines 402-438), on the already shifted code
`ev_code - 0x120`.  The arms 10, 18, 21, 28 and the wildcard only
print and change nothing, hence none. -/
def buttonCode (hw : Nat) (c : Int) : Option Btn :=
  if c = 0 ∨ c = 19 then some (btnForX hw)
  else if c = 1 ∨ c = 17 then some (btnForA hw)
  else if c = 2 ∨ c = 16 then some (btnForB hw)
  else if c = 3 ∨ c = 20 then some (btnForY hw)
  else if c = 4 ∨ c = 24 then some Btn.L
  else if c = 5 ∨ c = 25 then some Btn.R
  else if c = 6 ∨ c = 22 then some Btn.W
  else if c = 7 ∨ c = 23 then some Btn.Z
  else if c = 8 ∨ c = 26 then some Btn.F
  else if c = 9 ∨ c = 27 then some Btn.E
  else if c = 12 ∨ c = 256 then some Btn.Up
  else if c = 13 ∨ c = 259 then some Btn.Right
  else if c = 14 ∨ c = 257 then some Btn.Down
  else if c = 15 ∨ c = 258 then some Btn.Left
  else if c = 29 then some Btn.D
  else if c = 30 then some Btn.C
  else none

/-- The 0x01 (key) branch of joystick_poll_event: look the shifted code
up and edit one bit; `is` is the comparison `ev_value == 1`.  The i16
subtraction `ev_code - 0x120` cannot wrap into any listed arm, so plain
Int subtraction is used. -/
def buttonEvent (d : Device) (js : EventRec) : Device :=
  match buttonCode d.hardware_id (js.ev_code - 0x120) with
  | some b => editBtn (js.ev_value = 1) d b
  | none => d

/-- The stick value of the 0x03 branch (src/devices.rs lines 442-452):
the GameCube adapter narrows the calibration by a quarter pad on each
side, every other device uses the recorded extent. -/
def axisValue (d : Device) (v : Int) : Option ℚ :=
  if d.hardware_id = gcId then
    let pad := Int.tdiv (wrap32 (d.abs_max - d.abs_min)) 4
    transform (wrap32 (d.abs_min + pad)) (wrap32 (d.abs_max - pad)) v
  else transform d.abs_min d.abs_max v

/-- The trigger value of the 0x03 branch (src/devices.rs lines 454-459):
fixed ranges 32..95 for the GameCube adapter and 0..127 otherwise, not
the recorded calibration extent. -/
def axisValue2 (d : Device) (v : Int) : Option ℚ :=
  if d.hardware_id = gcId then transform2 32 95 v else transform2 0 127 v

/-- The per-hardware axis-code permutation (cam_x, cam_y, lrt_l, lrt_r)
of src/devices.rs lines 466-469. -/
def camLrtMap (hw : Nat) : Int × Int × Int × Int :=
  if hw = gcId then (5, 2, 3, 4) else (3, 4, 2, 5)

/-- The wildcard arm of the axis match (src/devices.rs lines 499-527):
the if chain on the quirk permutation tuple (cam_x, cam_y, lrt_l,
lrt_r), with the trigger threshold comparison value2 > 0.99 deciding
the synthesized L or R button bit. -/
def axisWild (d : Device) (m : Int × Int × Int × Int) (code : Int)
    (value value2 : ℚ) : Device :=
  if code = m.1 then { d with camx := value }
  else if code = m.2.1 then { d with camy := value }
  else if code = m.2.2.1 then
    { (editBtn (decide ((99 : ℚ) / 100 < value2)) d Btn.L) with trgl := value2 }
  else if code = m.2.2.2 then
    { (editBtn (decide ((99 : ℚ) / 100 < value2)) d Btn.R) with trgr := value2 }
  else d

/-- The listed arms of the axis match: primary stick on codes 0 and 1,
the hat pair folded to buttons on 16 and 17, code 40 ignored as a
duplicate axis, then the wildcard chain on the quirk permutation. -/
def axisApply (d : Device) (code val : Int) (value value2 : ℚ) : Device :=
  if code = 0 then { d with joyx := value }
  else if code = 1 then { d with joyy := value }
  else if code = 16 then
    (if val < 0 then editBtn false (editBtn true d Btn.Left) Btn.Right
     else if val > 0 then editBtn true (editBtn false d Btn.Left) Btn.Right
     else editBtn false (editBtn false d Btn.Left) Btn.Right)
  else if code = 17 then
    (if val < 0 then editBtn false (editBtn true d Btn.Up) Btn.Down
     else if val > 0 then editBtn true (editBtn false d Btn.Up) Btn.Down
     else editBtn false (editBtn false d Btn.Up) Btn.Down)
  else if code = 40 then d
  else axisWild d (camLrtMap d.hardware_id) code value value2

/-- One fully read record through the match on ev_type: key events edit
one bit, abs events first force both decoded values (a division panic
is none), every other type is ignored. -/
def applyEvent (d : Device) (js : EventRec) : Option Device :=
  if js.ev_type = 1 then some (buttonEvent d js)
  else if js.ev_type = 3 then
    match axisValue d js.ev_value, axisValue2 d js.ev_value with
    | some value, some value2 =>
        some (axisApply d js.ev_code js.ev_value value value2)
    | _, _ => none
  else some d

/-- fn joystick_poll_event (src/devices.rs lines 346-535): a short read
(none) returns false and touches nothing, a complete record is applied
and the call returns true. -/
def pollEvent (d : Device) (rec : Option EventRec) : Option (Device × Bool) :=
  match rec with
  | none => some (d, false)
  | some js => (applyEvent d js).map (fun e => (e, true))

/-- A freshly created slot, from Port::add_stick (src/devices.rs lines
239-259): zero axes, zero buttons, plugged in. -/
def freshDevice (hw : Nat) (mn mx : Int) : Device :=
  { hardware_id := hw, abs_min := mn, abs_max := mx,
    joyx := 0, joyy := 0, camx := 0, camy := 0, trgl := 0, trgr := 0,
    btns := 0, plug := true }

/-- Every device state the decoder can produce from a fresh slot by any
sequence of (possibly short) reads. -/
inductive Reachable : Device → Prop where
  | base (hw : Nat) (mn mx : Int) : Reachable (freshDevice hw mn mx)
  | step (d : Device) (rec : Option EventRec) (d2 : Device) (b : Bool) :
      Reachable d → pollEvent d rec = some (d2, b) → Reachable d2

/-- The axis range invariant of spec section 3: sticks in [-1, 1],
triggers in [0, 1]. -/
def InBounds (d : Device) : Prop :=
  -1 ≤ d.joyx ∧ d.joyx ≤ 1 ∧ -1 ≤ d.joyy ∧ d.joyy ≤ 1 ∧
  -1 ≤ d.camx ∧ d.camx ≤ 1 ∧ -1 ≤ d.camy ∧ d.camy ≤ 1 ∧
  0 ≤ d.trgl ∧ d.trgl ≤ 1 ∧ 0 ≤ d.trgr ∧ d.trgr ≤ 1

/-- Device::joy (src/devices.rs lines 162-164). -/
def Device.joy (d : Device) : Option (ℚ × ℚ) := some (d.joyx, d.joyy)

/-- Device::cam (src/devices.rs lines 167-176): none exactly for the
flight controller. -/
def Device.cam (d : Device) : Option (ℚ × ℚ) :=
  if d.hardware_id = flightId then none else some (d.camx, d.camy)

/-- Device::lrt (src/devices.rs lines 179-181). -/
def Device.lrt (d : Device) : Option (ℚ × ℚ) := some (d.trgl, d.trgr)

/-- Device::btn (src/devices.rs lines 185-187): the bitmask test. -/
def Device.btnPressed (d : Device) (b : Btn) : Bool :=
  decide (d.btns &&& (1 <<< b.code) ≠ 0)

/-- CONTROLLER_MAX of src/devices.rs line 6. -/
def CONTROLLER_MAX : Nat := 64

/-- struct Port (src/devices.rs lines 203-210): the fixed slot array and
the live counter.  The NativeManager file descriptors are external
handles and carry no decoded state. -/
structure Port where
  controllers : Fin CONTROLLER_MAX → Device
  count : Nat

/-- Port::get (src/devices.rs lines 308-317).  The outer none models the
Rust index panic on `self.controllers[stick as usize]` when the index
is at least 64; the inner option is the presence test on plug. -/
def Port.getSlot (p : Port) (stick : Nat) : Option (Option Device) :=
  if h : stick < CONTROLLER_MAX then
    some (if (p.controllers ⟨stick, h⟩).plug then some (p.controllers ⟨stick, h⟩)
          else none)
  else none

/-- Port::swap (src/devices.rs lines 329-331): exchange two slots, none
models the bounds panic of the slice swap. -/
def Port.swapSlots (p : Port) (a b : Nat) : Option Port :=
  if ha : a < CONTROLLER_MAX then
    if hb : b < CONTROLLER_MAX then
      some { p with controllers := fun i =>
        if i = ⟨a, ha⟩ then p.controllers ⟨b, hb⟩
        else if i = ⟨b, hb⟩ then p.controllers ⟨a, ha⟩
        else p.controllers i }
    else none
  else none

/-- The implicit-removal branch of Port::input (src/devices.rs lines
289-293): the only state change on the Port is the counter decrement;
manager.disconnect closes the descriptor and blanks the manager-side
name (src/ffi/linux.rs lines 107-118) and never touches the plug flag
of the Device slot, which keeps its stale contents. -/
def Port.inputRemoval (p : Port) : Port := { p with count := p.count - 1 }

/-- The inotify mask bit for a creation event. -/
def IN_CREATE : Nat := 0x100

/-- The inotify mask bit for a deletion event; the watch subscribes to
both bits (src/ffi/linux.rs lines 203-209). -/
def IN_DELETE : Nat := 0x200

/-- fn inotify_read2 (src/ffi/linux.rs lines 228-284), with the file
system interaction abstracted: matchesSuffix is the name test against
`-event-joystick`, openOk the outcome of the open with its one retry,
slot the reused or appended manager index.  The gate
`!namer.ends_with(..) || ev.mask != 0x100 => None` is verbatim: every
record whose mask is not exactly IN_CREATE is discarded, so the
function never returns a removal report (false, index). -/
def inotifyReadResult (matchesSuffix : Bool) (mask : Nat) (openOk : Bool)
    (slot : Nat) : Option (Bool × Nat) :=
  if ¬matchesSuffix ∨ mask ≠ IN_CREATE then none
  else if ¬openOk then none
  else some (true, slot)

/-- A concrete plugged-in device with the calibration of the spec
scenarios (min = -100, max = 100) and a quirk-free hardware id. -/
def testDev : Device := freshDevice 0 (-100) 100

/-- A concrete registry: the test device in every slot, count 1. -/
def testPort : Port := { controllers := fun _ => testDev, count := 1 }

theorem btnCode_lt (b : Btn) : b.code < 32 := by cases b <;> decide

theorem applyBit_idem (i : Bool) (b n : Nat) :
    applyBit i b (applyBit i b n) = applyBit i b n := by
  cases i <;> simp only [applyBit, if_true, if_false, Bool.false_eq_true]
  · rw [Nat.and_assoc, Nat.and_self]
  · rw [Nat.or_assoc, Nat.or_self]

theorem testBit_applyBit (b : Nat) (hb : b < 32) (i : Bool) (n k : Nat) :
    (applyBit i b n).testBit k =
      if b = k then (i && decide (k < 32))
      else (n.testBit k && (i || decide (k < 32))) := by
  have hm : ∀ j, Nat.testBit (2 ^ 32 - 1) j = decide (j < 32) :=
    fun j => Nat.testBit_two_pow_sub_one 32 j
  cases i <;>
    simp only [applyBit, if_true, if_false, Bool.false_eq_true, Nat.testBit_or,
      Nat.testBit_and, Nat.testBit_xor, Nat.one_shiftLeft, Nat.testBit_two_pow,
      mask32, hm] <;>
    by_cases e : b = k <;> by_cases l : k < 32 <;>
    simp_all

theorem applyBit_pair_idem (i1 i2 : Bool) (b1 b2 : Btn) (n : Nat) :
    applyBit i2 b2.code (applyBit i1 b1.code
      (applyBit i2 b2.code (applyBit i1 b1.code n))) =
    applyBit i2 b2.code (applyBit i1 b1.code n) := by
  apply Nat.eq_of_testBit_eq
  intro k
  rw [testBit_applyBit b2.code (btnCode_lt b2), testBit_applyBit b1.code (btnCode_lt b1),
    testBit_applyBit b2.code (btnCode_lt b2), testBit_applyBit b1.code (btnCode_lt b1)]
  by_cases e2 : b2.code = k <;> by_cases e1 : b1.code = k <;>
    by_cases l : k < 32 <;> cases i1 <;> cases i2 <;> simp_all

theorem tdiv_le_tdiv (a b d : Int) (h : a ≤ b) (hd : 0 < d) :
    Int.tdiv a d ≤ Int.tdiv b d := by
  have hneg : ∀ x : Int, Int.tdiv (-x) d = -Int.tdiv x d := fun x => Int.neg_tdiv x d
  rcases le_or_lt 0 a with ha | ha
  · rw [Int.tdiv_eq_ediv ha hd.le, Int.tdiv_eq_ediv (le_trans ha h) hd.le]
    exact Int.ediv_le_ediv hd h
  · rcases le_or_lt 0 b with hb | hb
    · have h1 : 0 ≤ Int.tdiv (-a) d := Int.tdiv_nonneg (by omega) hd.le
      have h2 : 0 ≤ Int.tdiv b d := Int.tdiv_nonneg hb hd.le
      have h3 := hneg a
      omega
    · have h1 : Int.tdiv (-b) d ≤ Int.tdiv (-a) d := by
        rw [Int.tdiv_eq_ediv (by omega) hd.le, Int.tdiv_eq_ediv (by omega) hd.le]
        exact Int.ediv_le_ediv hd (by omega)
      have h2 := hneg a
      have h3 := hneg b
      omega

theorem wrap32_id (x : Int) (h1 : -(2 ^ 31) ≤ x) (h2 : x < 2 ^ 31) :
    wrap32 x = x := by
  unfold wrap32
  omega

theorem deadzone_snd (mn mx val : Int) (hlo : -4194304 ≤ mn) (hhi : mx ≤ 4194304)
    (h2 : mn + 2 ≤ mx) :
    (deadzone mn mx val).2 = (mx - mn) / 2 - (mx - mn) / 2 / 4 := by
  simp only [deadzone, wrap32]
  omega

theorem deadzone_fst_zero (mn mx val : Int) (hlo : -4194304 ≤ mn)
    (hhi : mx ≤ 4194304) (h2 : mn + 2 ≤ mx)
    (hb1 : -((mx - mn) / 2 / 4) ≤ val - midpointOf mn mx)
    (hb2 : val - midpointOf mn mx ≤ (mx - mn) / 2 / 4) :
    (deadzone mn mx val).1 = 0 := by
  simp only [deadzone, midpointOf, wrap32] at *
  split_ifs <;> omega

theorem deadzone_fst_mono (mn mx v1 v2 : Int) (hlo : -4194304 ≤ mn)
    (hhi : mx ≤ 4194304) (h2 : mn + 2 ≤ mx)
    (hv1 : -8388608 ≤ v1) (hv2 : v2 ≤ 8388608) (h : v1 ≤ v2) :
    (deadzone mn mx v1).1 ≤ (deadzone mn mx v2).1 := by
  simp only [deadzone, wrap32]
  split_ifs <;> omega

theorem deadzone_fst_min (mn mx : Int) (hlo : -4194304 ≤ mn)
    (hhi : mx ≤ 4194304) (h2 : mn + 2 ≤ mx) :
    (deadzone mn mx mn).1 = -((mx - mn) / 2 - (mx - mn) / 2 / 4) := by
  simp only [deadzone, wrap32]
  split_ifs <;> omega

theorem deadzone_fst_max (mn mx : Int) (hlo : -4194304 ≤ mn)
    (hhi : mx ≤ 4194304) (h2 : mn + 2 ≤ mx) :
    (mx - mn) / 2 - (mx - mn) / 2 / 4 ≤ (deadzone mn mx mx).1 ∧
    (deadzone mn mx mx).1 ≤ (mx - mn) / 2 - (mx - mn) / 2 / 4 + 1 := by
  simp only [deadzone, wrap32]
  constructor <;> split_ifs <;> omega

theorem deadzone_fst_abs (mn mx val : Int) (hlo : -4194304 ≤ mn)
    (hhi : mx ≤ 4194304) (h2 : mn + 2 ≤ mx)
    (hv1 : -8388608 ≤ val) (hv2 : val ≤ 8388608) :
    -12582912 ≤ (deadzone mn mx val).1 ∧ (deadzone mn mx val).1 ≤ 12582912 := by
  simp only [deadzone, wrap32]
  constructor <;> split_ifs <;> omega

theorem transformZ_band (mn mx val : Int) (hlo : -4194304 ≤ mn)
    (hhi : mx ≤ 4194304) (h2 : mn + 2 ≤ mx)
    (hb1 : -((mx - mn) / 2 / 4) ≤ val - midpointOf mn mx)
    (hb2 : val - midpointOf mn mx ≤ (mx - mn) / 2 / 4) :
    transformZ mn mx val = some 0 := by
  have hz := deadzone_fst_zero mn mx val hlo hhi h2 hb1 hb2
  unfold transformZ rdiv
  rw [deadzone_snd mn mx val hlo hhi h2, hz,
    (by decide : wrap32 (0 * 127) = 0),
    if_neg (by omega :
      ¬((mx - mn) / 2 - (mx - mn) / 2 / 4 = 0 ∨
        ((0 : Int) = -(2 ^ 31) ∧ (mx - mn) / 2 - (mx - mn) / 2 / 4 = -1)))]
  simp [Int.zero_tdiv]

theorem transformZ_min (mn mx : Int) (hlo : -4194304 ≤ mn)
    (hhi : mx ≤ 4194304) (h2 : mn + 2 ≤ mx) :
    transformZ mn mx mn = some (-127) := by
  have h1 := deadzone_fst_min mn mx hlo hhi h2
  unfold transformZ rdiv
  rw [deadzone_snd mn mx mn hlo hhi h2, h1]
  have hw : wrap32 (-((mx - mn) / 2 - (mx - mn) / 2 / 4) * 127) =
      -((mx - mn) / 2 - (mx - mn) / 2 / 4) * 127 :=
    wrap32_id _ (by omega) (by omega)
  rw [hw, if_neg (by omega :
    ¬((mx - mn) / 2 - (mx - mn) / 2 / 4 = 0 ∨
      (-((mx - mn) / 2 - (mx - mn) / 2 / 4) * 127 = -(2 ^ 31) ∧
        (mx - mn) / 2 - (mx - mn) / 2 / 4 = -1)))]
  have ht : Int.tdiv (-((mx - mn) / 2 - (mx - mn) / 2 / 4) * 127)
      ((mx - mn) / 2 - (mx - mn) / 2 / 4) = -127 := by
    rw [neg_mul, Int.neg_tdiv, mul_comm, Int.mul_tdiv_cancel _ (by omega)]
  rw [ht]
  simp

theorem transformZ_max (mn mx : Int) (hlo : -4194304 ≤ mn)
    (hhi : mx ≤ 4194304) (h2 : mn + 2 ≤ mx) :
    transformZ mn mx mx = some 127 := by
  obtain ⟨hlow, hhigh⟩ := deadzone_fst_max mn mx hlo hhi h2
  unfold transformZ rdiv
  rw [deadzone_snd mn mx mx hlo hhi h2]
  have hw : wrap32 ((deadzone mn mx mx).1 * 127) = (deadzone mn mx mx).1 * 127 :=
    wrap32_id _ (by omega) (by omega)
  rw [hw, if_neg (by omega :
    ¬((mx - mn) / 2 - (mx - mn) / 2 / 4 = 0 ∨
      ((deadzone mn mx mx).1 * 127 = -(2 ^ 31) ∧
        (mx - mn) / 2 - (mx - mn) / 2 / 4 = -1)))]
  have h127 : 127 ≤ Int.tdiv ((deadzone mn mx mx).1 * 127)
      ((mx - mn) / 2 - (mx - mn) / 2 / 4) := by
    have hm : ((mx - mn) / 2 - (mx - mn) / 2 / 4) * 127 ≤ (deadzone mn mx mx).1 * 127 :=
      mul_le_mul_of_nonneg_right hlow (by norm_num)
    have he : Int.tdiv (((mx - mn) / 2 - (mx - mn) / 2 / 4) * 127)
        ((mx - mn) / 2 - (mx - mn) / 2 / 4) = 127 := by
      rw [mul_comm, Int.mul_tdiv_cancel _ (by omega)]
    have hle := tdiv_le_tdiv _ _ _ hm
      (by omega : (0:Int) < (mx - mn) / 2 - (mx - mn) / 2 / 4)
    omega
  simp only [Option.map_some']
  congr 1
  omega

theorem transformZ_mono (mn mx v1 v2 : Int) (hlo : -4194304 ≤ mn)
    (hhi : mx ≤ 4194304) (h2 : mn + 2 ≤ mx)
    (hv1 : -8388608 ≤ v1) (hv2 : v2 ≤ 8388608) (h : v1 ≤ v2)
    (z1 z2 : Int) (e1 : transformZ mn mx v1 = some z1)
    (e2 : transformZ mn mx v2 = some z2) : z1 ≤ z2 := by
  have hd := deadzone_fst_mono mn mx v1 v2 hlo hhi h2 hv1 hv2 h
  obtain ⟨ha1, ha2⟩ := deadzone_fst_abs mn mx v1 hlo hhi h2 hv1 (le_trans h hv2)
  obtain ⟨hc1, hc2⟩ := deadzone_fst_abs mn mx v2 hlo hhi h2 (le_trans hv1 h) hv2
  unfold transformZ rdiv at e1 e2
  rw [deadzone_snd mn mx v1 hlo hhi h2] at e1
  rw [deadzone_snd mn mx v2 hlo hhi h2] at e2
  have hw1 : wrap32 ((deadzone mn mx v1).1 * 127) = (deadzone mn mx v1).1 * 127 :=
    wrap32_id _ (by omega) (by omega)
  have hw2 : wrap32 ((deadzone mn mx v2).1 * 127) = (deadzone mn mx v2).1 * 127 :=
    wrap32_id _ (by omega) (by omega)
  rw [hw1, if_neg (by omega :
    ¬((mx - mn) / 2 - (mx - mn) / 2 / 4 = 0 ∨
      ((deadzone mn mx v1).1 * 127 = -(2 ^ 31) ∧
        (mx - mn) / 2 - (mx - mn) / 2 / 4 = -1)))] at e1
  rw [hw2, if_neg (by omega :
    ¬((mx - mn) / 2 - (mx - mn) / 2 / 4 = 0 ∨
      ((deadzone mn mx v2).1 * 127 = -(2 ^ 31) ∧
        (mx - mn) / 2 - (mx - mn) / 2 / 4 = -1)))] at e2
  simp only [Option.map_some', Option.some.injEq] at e1 e2
  have hm : (deadzone mn mx v1).1 * 127 ≤ (deadzone mn mx v2).1 * 127 :=
    mul_le_mul_of_nonneg_right hd (by norm_num)
  have ht := tdiv_le_tdiv _ _ _ hm
    (by omega : (0:Int) < (mx - mn) / 2 - (mx - mn) / 2 / 4)
  omega

theorem transformZ_bounds (mn mx val : Int) (z : Int)
    (e : transformZ mn mx val = some z) : -127 ≤ z ∧ z ≤ 127 := by
  unfold transformZ rdiv at e
  split_ifs at e
  · simp at e
  · simp only [Option.map_some', Option.some.injEq] at e
    omega

theorem transform_band (mn mx val : Int) (hlo : -4194304 ≤ mn)
    (hhi : mx ≤ 4194304) (h2 : mn + 2 ≤ mx)
    (hb1 : -((mx - mn) / 2 / 4) ≤ val - midpointOf mn mx)
    (hb2 : val - midpointOf mn mx ≤ (mx - mn) / 2 / 4) :
    transform mn mx val = some 0 := by
  unfold transform
  rw [transformZ_band mn mx val hlo hhi h2 hb1 hb2]
  simp

theorem transform_min (mn mx : Int) (hlo : -4194304 ≤ mn)
    (hhi : mx ≤ 4194304) (h2 : mn + 2 ≤ mx) :
    transform mn mx mn = some (-1) := by
  unfold transform
  rw [transformZ_min mn mx hlo hhi h2]
  norm_num

theorem transform_max (mn mx : Int) (hlo : -4194304 ≤ mn)
    (hhi : mx ≤ 4194304) (h2 : mn + 2 ≤ mx) :
    transform mn mx mx = some 1 := by
  unfold transform
  rw [transformZ_max mn mx hlo hhi h2]
  norm_num

theorem transform_bounds (mn mx val : Int) (q : ℚ)
    (e : transform mn mx val = some q) : -1 ≤ q ∧ q ≤ 1 := by
  unfold transform at e
  rcases hz : transformZ mn mx val with _ | z <;> rw [hz] at e
  · simp at e
  · simp only [Option.map_some', Option.some.injEq] at e
    obtain ⟨hb1, hb2⟩ := transformZ_bounds mn mx val z hz
    subst e
    constructor
    · rw [le_div_iff₀ (by norm_num : (0:ℚ) < 127)]
      have hc : ((-127 : Int) : ℚ) ≤ (z : ℚ) := by exact_mod_cast hb1
      push_cast at hc ⊢
      linarith
    · rw [div_le_one (by norm_num : (0:ℚ) < 127)]
      exact_mod_cast hb2

theorem transform_mono (mn mx v1 v2 : Int) (hlo : -4194304 ≤ mn)
    (hhi : mx ≤ 4194304) (h2 : mn + 2 ≤ mx)
    (hv1 : -8388608 ≤ v1) (hv2 : v2 ≤ 8388608) (h : v1 ≤ v2)
    (q1 q2 : ℚ) (e1 : transform mn mx v1 = some q1)
    (e2 : transform mn mx v2 = some q2) : q1 ≤ q2 := by
  unfold transform at e1 e2
  rcases hz1 : transformZ mn mx v1 with _ | z1 <;> rw [hz1] at e1
  · simp at e1
  rcases hz2 : transformZ mn mx v2 with _ | z2 <;> rw [hz2] at e2
  · simp at e2
  simp only [Option.map_some', Option.some.injEq] at e1 e2
  subst e1
  subst e2
  have hzz := transformZ_mono mn mx v1 v2 hlo hhi h2 hv1 hv2 h z1 z2 hz1 hz2
  have hc : (z1 : ℚ) ≤ (z2 : ℚ) := by exact_mod_cast hzz
  exact div_le_div_of_nonneg_right hc (by norm_num)

theorem transform2Z_bounds (mn mx val : Int) (z : Int)
    (e : transform2Z mn mx val = some z) : 0 ≤ z ∧ z ≤ 255 := by
  unfold transform2Z rdiv at e
  split_ifs at e
  · simp at e
  · simp only [Option.map_some', Option.some.injEq] at e
    omega

theorem transform2Z_mono (mn mx v1 v2 : Int) (hd : 0 < mx - mn)
    (hd2 : mx - mn < 2 ^ 31)
    (hv1 : -8388608 ≤ v1) (hv2 : v2 ≤ 8388608) (h : v1 ≤ v2)
    (z1 z2 : Int) (e1 : transform2Z mn mx v1 = some z1)
    (e2 : transform2Z mn mx v2 = some z2) : z1 ≤ z2 := by
  unfold transform2Z rdiv at e1 e2
  have hwd : wrap32 (mx - mn) = mx - mn := wrap32_id _ (by omega) (by omega)
  have hw1 : wrap32 (v1 * 255) = v1 * 255 := wrap32_id _ (by omega) (by omega)
  have hw2 : wrap32 (v2 * 255) = v2 * 255 := wrap32_id _ (by omega) (by omega)
  rw [hwd, hw1, if_neg (by omega :
    ¬(mx - mn = 0 ∨ (v1 * 255 = -(2 ^ 31) ∧ mx - mn = -1)))] at e1
  rw [hwd, hw2, if_neg (by omega :
    ¬(mx - mn = 0 ∨ (v2 * 255 = -(2 ^ 31) ∧ mx - mn = -1)))] at e2
  simp only [Option.map_some', Option.some.injEq] at e1 e2
  have hm : v1 * 255 ≤ v2 * 255 := mul_le_mul_of_nonneg_right h (by norm_num)
  have ht := tdiv_le_tdiv _ _ _ hm hd
  omega

theorem transform2_bounds (mn mx val : Int) (q : ℚ)
    (e : transform2 mn mx val = some q) : 0 ≤ q ∧ q ≤ 1 := by
  unfold transform2 at e
  rcases hz : transform2Z mn mx val with _ | z <;> rw [hz] at e
  · simp at e
  · simp only [Option.map_some', Option.some.injEq] at e
    obtain ⟨hb1, hb2⟩ := transform2Z_bounds mn mx val z hz
    subst e
    constructor
    · positivity
    · rw [div_le_one (by norm_num : (0:ℚ) < 255)]
      exact_mod_cast hb2

theorem transform2_mono (mn mx v1 v2 : Int) (hd : 0 < mx - mn)
    (hd2 : mx - mn < 2 ^ 31)
    (hv1 : -8388608 ≤ v1) (hv2 : v2 ≤ 8388608) (h : v1 ≤ v2)
    (q1 q2 : ℚ) (e1 : transform2 mn mx v1 = some q1)
    (e2 : transform2 mn mx v2 = some q2) : q1 ≤ q2 := by
  unfold transform2 at e1 e2
  rcases hz1 : transform2Z mn mx v1 with _ | z1 <;> rw [hz1] at e1
  · simp at e1
  rcases hz2 : transform2Z mn mx v2 with _ | z2 <;> rw [hz2] at e2
  · simp at e2
  simp only [Option.map_some', Option.some.injEq] at e1 e2
  subst e1
  subst e2
  have hzz := transform2Z_mono mn mx v1 v2 hd hd2 hv1 hv2 h z1 z2 hz1 hz2
  have hc : (z1 : ℚ) ≤ (z2 : ℚ) := by exact_mod_cast hzz
  exact div_le_div_of_nonneg_right hc (by norm_num)

theorem transform2_isSome (mn mx val : Int) (hd : 0 < mx - mn)
    (hd2 : mx - mn < 2 ^ 31) :
    ∃ q, transform2 mn mx val = some q := by
  unfold transform2 transform2Z rdiv
  have hwd : wrap32 (mx - mn) = mx - mn := wrap32_id _ (by omega) (by omega)
  rw [hwd, if_neg (by omega :
    ¬(mx - mn = 0 ∨ (wrap32 (val * 255) = -(2 ^ 31) ∧ mx - mn = -1)))]
  exact ⟨_, rfl⟩

theorem editBtn_hw (is : Bool) (d : Device) (b : Btn) : (editBtn is d b).hardware_id = d.hardware_id := rfl

theorem editBtn_amin (is : Bool) (d : Device) (b : Btn) : (editBtn is d b).abs_min = d.abs_min := rfl

theorem editBtn_amax (is : Bool) (d : Device) (b : Btn) : (editBtn is d b).abs_max = d.abs_max := rfl

theorem editBtn_joyx (is : Bool) (d : Device) (b : Btn) : (editBtn is d b).joyx = d.joyx := rfl

theorem editBtn_joyy (is : Bool) (d : Device) (b : Btn) : (editBtn is d b).joyy = d.joyy := rfl

theorem editBtn_camx (is : Bool) (d : Device) (b : Btn) : (editBtn is d b).camx = d.camx := rfl

theorem editBtn_camy (is : Bool) (d : Device) (b : Btn) : (editBtn is d b).camy = d.camy := rfl

theorem editBtn_trgl (is : Bool) (d : Device) (b : Btn) : (editBtn is d b).trgl = d.trgl := rfl

theorem editBtn_trgr (is : Bool) (d : Device) (b : Btn) : (editBtn is d b).trgr = d.trgr := rfl

theorem editBtn_plug (is : Bool) (d : Device) (b : Btn) : (editBtn is d b).plug = d.plug := rfl

theorem buttonEvent_axes (d : Device) (js : EventRec) :
    (buttonEvent d js).hardware_id = d.hardware_id ∧
    (buttonEvent d js).abs_min = d.abs_min ∧
    (buttonEvent d js).abs_max = d.abs_max ∧
    (buttonEvent d js).joyx = d.joyx ∧ (buttonEvent d js).joyy = d.joyy ∧
    (buttonEvent d js).camx = d.camx ∧ (buttonEvent d js).camy = d.camy ∧
    (buttonEvent d js).trgl = d.trgl ∧ (buttonEvent d js).trgr = d.trgr ∧
    (buttonEvent d js).plug = d.plug := by
  unfold buttonEvent
  cases buttonCode d.hardware_id (js.ev_code - 0x120) <;>
    exact ⟨rfl, rfl, rfl, rfl, rfl, rfl, rfl, rfl, rfl, rfl⟩

theorem axisWild_ids (d : Device) (m : Int × Int × Int × Int) (code : Int)
    (value value2 : ℚ) :
    (axisWild d m code value value2).hardware_id = d.hardware_id ∧
    (axisWild d m code value value2).abs_min = d.abs_min ∧
    (axisWild d m code value value2).abs_max = d.abs_max ∧
    (axisWild d m code value value2).plug = d.plug := by
  simp only [axisWild]
  split_ifs <;> exact ⟨rfl, rfl, rfl, rfl⟩

theorem axisApply_ids (d : Device) (code val : Int) (value value2 : ℚ) :
    (axisApply d code val value value2).hardware_id = d.hardware_id ∧
    (axisApply d code val value value2).abs_min = d.abs_min ∧
    (axisApply d code val value value2).abs_max = d.abs_max ∧
    (axisApply d code val value value2).plug = d.plug := by
  simp only [axisApply]
  split_ifs <;> first
    | exact ⟨rfl, rfl, rfl, rfl⟩
    | exact axisWild_ids d (camLrtMap d.hardware_id) code value value2

theorem axisValue_congr (d e : Device) (hh : e.hardware_id = d.hardware_id)
    (h1 : e.abs_min = d.abs_min) (h2 : e.abs_max = d.abs_max) (v : Int) :
    axisValue e v = axisValue d v := by
  unfold axisValue
  rw [hh, h1, h2]

theorem axisValue2_congr (d e : Device) (hh : e.hardware_id = d.hardware_id)
    (v : Int) : axisValue2 e v = axisValue2 d v := by
  unfold axisValue2
  rw [hh]

theorem axisValue_bounds (d : Device) (v : Int) (q : ℚ)
    (e : axisValue d v = some q) : -1 ≤ q ∧ q ≤ 1 := by
  unfold axisValue at e
  split_ifs at e <;> exact transform_bounds _ _ _ _ e

theorem axisValue2_bounds (d : Device) (v : Int) (q : ℚ)
    (e : axisValue2 d v = some q) : 0 ≤ q ∧ q ≤ 1 := by
  unfold axisValue2 at e
  split_ifs at e <;> exact transform2_bounds _ _ _ _ e

theorem inBounds_fresh (hw : Nat) (mn mx : Int) : InBounds (freshDevice hw mn mx) := by
  unfold InBounds freshDevice
  norm_num

set_option maxHeartbeats 1600000 in
theorem axisWild_inBounds (d : Device) (m : Int × Int × Int × Int) (code : Int)
    (value value2 : ℚ) (hd : InBounds d) (h1 : -1 ≤ value) (h2 : value ≤ 1)
    (h3 : 0 ≤ value2) (h4 : value2 ≤ 1) :
    InBounds (axisWild d m code value value2) := by
  obtain ⟨a1, a2, a3, a4, a5, a6, a7, a8, a9, a10, a11, a12⟩ := hd
  simp only [axisWild]
  split_ifs <;>
    first
      | exact ⟨a1, a2, a3, a4, a5, a6, a7, a8, a9, a10, a11, a12⟩
      | exact ⟨a1, a2, a3, a4, h1, h2, a7, a8, a9, a10, a11, a12⟩
      | exact ⟨a1, a2, a3, a4, a5, a6, h1, h2, a9, a10, a11, a12⟩
      | exact ⟨a1, a2, a3, a4, a5, a6, a7, a8, h3, h4, a11, a12⟩
      | exact ⟨a1, a2, a3, a4, a5, a6, a7, a8, a9, a10, h3, h4⟩

set_option maxHeartbeats 1600000 in
theorem axisApply_inBounds (d : Device) (code val : Int) (value value2 : ℚ)
    (hd : InBounds d) (h1 : -1 ≤ value) (h2 : value ≤ 1)
    (h3 : 0 ≤ value2) (h4 : value2 ≤ 1) :
    InBounds (axisApply d code val value value2) := by
  obtain ⟨a1, a2, a3, a4, a5, a6, a7, a8, a9, a10, a11, a12⟩ := hd
  simp only [axisApply]
  split_ifs <;>
    first
      | exact axisWild_inBounds d (camLrtMap d.hardware_id) code value value2
          ⟨a1, a2, a3, a4, a5, a6, a7, a8, a9, a10, a11, a12⟩ h1 h2 h3 h4
      | exact ⟨a1, a2, a3, a4, a5, a6, a7, a8, a9, a10, a11, a12⟩
      | exact ⟨h1, h2, a3, a4, a5, a6, a7, a8, a9, a10, a11, a12⟩
      | exact ⟨a1, a2, h1, h2, a5, a6, a7, a8, a9, a10, a11, a12⟩

theorem pollEvent_none (d : Device) : pollEvent d none = some (d, false) := rfl

/-- C4: over every device state reachable from a freshly created slot
(all six axis cells zero) by any sequence of decoded raw records, the
four stick axis values stay in [-1, 1] and the two trigger values stay
in [0, 1], for every hardware id and calibration. -/
theorem C4_reachable_inBounds (d : Device) (h : Reachable d) : InBounds d := by
  induction h with
  | base hw mn mx => exact inBounds_fresh hw mn mx
  | step d rec d2 b hr hp ih =>
      cases rec with
      | none =>
          rw [pollEvent_none] at hp
          simp only [Option.some.injEq, Prod.mk.injEq] at hp
          rw [← hp.1]
          exact ih
      | some js =>
          simp only [pollEvent] at hp
          rcases he : applyEvent d js with _ | dd <;> rw [he] at hp
          · simp at hp
          · simp only [Option.map_some', Option.some.injEq, Prod.mk.injEq] at hp
            obtain ⟨rfl, -⟩ := hp
            unfold applyEvent at he
            split_ifs at he with t1 t3
            · obtain rfl := Option.some.inj he
              obtain ⟨e1, e2, e3, e4, e5, e6, e7, e8, e9, e10⟩ := buttonEvent_axes d js
              unfold InBounds
              rw [e4, e5, e6, e7, e8, e9]
              exact ih
            · rcases e1 : axisValue d js.ev_value with _ | v <;> rw [e1] at he
              · simp at he
              rcases e2 : axisValue2 d js.ev_value with _ | v2 <;> rw [e2] at he
              · simp at he
              simp only [Option.some.injEq] at he
              obtain ⟨hb1, hb2⟩ := axisValue_bounds d js.ev_value v e1
              obtain ⟨hc1, hc2⟩ := axisValue2_bounds d js.ev_value v2 e2
              rw [← he]
              exact axisApply_inBounds d js.ev_code js.ev_value v v2 ih hb1 hb2 hc1 hc2
            · obtain rfl := Option.some.inj he
              exact ih

theorem editBtn_idem (is : Bool) (d : Device) (b : Btn) :
    editBtn is (editBtn is d b) b = editBtn is d b := by
  unfold editBtn
  congr 1
  exact applyBit_idem is b.code d.btns

theorem editPair_idem (i1 i2 : Bool) (b1 b2 : Btn) (d : Device) :
    editBtn i2 (editBtn i1 (editBtn i2 (editBtn i1 d b1) b2) b1) b2 =
      editBtn i2 (editBtn i1 d b1) b2 := by
  unfold editBtn
  congr 1
  exact applyBit_pair_idem i1 i2 b1 b2 d.btns

theorem axisWild_idem (d : Device) (m : Int × Int × Int × Int) (code : Int)
    (value value2 : ℚ) :
    axisWild (axisWild d m code value value2) m code value value2 =
      axisWild d m code value value2 := by
  simp only [axisWild]
  split_ifs <;> first
    | rfl
    | (unfold editBtn; congr 1; exact applyBit_idem _ _ _)

theorem buttonEvent_idem (d : Device) (js : EventRec) :
    buttonEvent (buttonEvent d js) js = buttonEvent d js := by
  cases hb : buttonCode d.hardware_id (js.ev_code - 0x120) with
  | none =>
      have h1 : buttonEvent d js = d := by unfold buttonEvent; rw [hb]
      rw [h1, h1]
  | some b =>
      have h1 : buttonEvent d js = editBtn (decide (js.ev_value = 1)) d b := by
        unfold buttonEvent; rw [hb]
      rw [h1]
      have hw : (editBtn (decide (js.ev_value = 1)) d b).hardware_id = d.hardware_id := rfl
      unfold buttonEvent
      rw [hw, hb]
      exact editBtn_idem _ d b

theorem axisApply_idem (d : Device) (code val : Int) (value value2 : ℚ) :
    axisApply (axisApply d code val value value2) code val value value2 =
      axisApply d code val value value2 := by
  by_cases c0 : code = 0
  · simp [axisApply, c0]
  by_cases c1 : code = 1
  · simp [axisApply, c0, c1]
  by_cases c16 : code = 16
  · by_cases v1 : val < 0
    · simp only [axisApply, c0, c1, c16, v1, if_true, if_false]
      simp [v1]
      exact editPair_idem true false Btn.Left Btn.Right d
    by_cases v2 : val > 0
    · simp [axisApply, c0, c1, c16, v1, v2]
      exact editPair_idem false true Btn.Left Btn.Right d
    · simp [axisApply, c0, c1, c16, v1, v2]
      exact editPair_idem false false Btn.Left Btn.Right d
  by_cases c17 : code = 17
  · by_cases v1 : val < 0
    · simp [axisApply, c0, c1, c16, c17, v1]
      exact editPair_idem true false Btn.Up Btn.Down d
    by_cases v2 : val > 0
    · simp [axisApply, c0, c1, c16, c17, v1, v2]
      exact editPair_idem false true Btn.Up Btn.Down d
    · simp [axisApply, c0, c1, c16, c17, v1, v2]
      exact editPair_idem false false Btn.Up Btn.Down d
  by_cases c40 : code = 40
  · simp [axisApply, c0, c1, c16, c17, c40]
  · simp only [axisApply, c0, c1, c16, c17, c40, if_false]
    have hm := (axisWild_ids d (camLrtMap d.hardware_id) code value value2).1
    rw [hm]
    exact axisWild_idem d (camLrtMap d.hardware_id) code value value2

theorem applyEvent_idem (d : Device) (js : EventRec) (d2 : Device)
    (h : applyEvent d js = some d2) : applyEvent d2 js = some d2 := by
  by_cases t1 : js.ev_type = 1
  · unfold applyEvent at h ⊢
    rw [if_pos t1] at h ⊢
    obtain rfl := Option.some.inj h
    exact congrArg some (buttonEvent_idem d js)
  by_cases t3 : js.ev_type = 3
  · unfold applyEvent at h ⊢
    rw [if_neg t1, if_pos t3] at h ⊢
    rcases e1 : axisValue d js.ev_value with _ | v <;> rw [e1] at h
    · simp at h
    rcases e2 : axisValue2 d js.ev_value with _ | v2 <;> rw [e2] at h
    · simp at h
    simp only [Option.some.injEq] at h
    obtain rfl := h
    have hids := axisApply_ids d js.ev_code js.ev_value v v2
    have hv1 : axisValue (axisApply d js.ev_code js.ev_value v v2) js.ev_value
        = some v := by
      rw [axisValue_congr d _ hids.1 hids.2.1 hids.2.2.1 js.ev_value, e1]
    have hv2 : axisValue2 (axisApply d js.ev_code js.ev_value v v2) js.ev_value
        = some v2 := by
      rw [axisValue2_congr d _ hids.1 js.ev_value, e2]
    rw [hv1, hv2]
    show some (axisApply (axisApply d js.ev_code js.ev_value v v2)
        js.ev_code js.ev_value v v2) =
      some (axisApply d js.ev_code js.ev_value v v2)
    exact congrArg some (axisApply_idem d js.ev_code js.ev_value v v2)
  · unfold applyEvent at h ⊢
    rw [if_neg t1, if_neg t3] at h ⊢

/-- C5: decoding the same raw record (or the same short read) twice in
succession yields exactly the same final device state, axis values and
button bitmask included, and the same return flag as decoding it
once. -/
theorem C5_poll_idempotent (d : Device) (rec : Option EventRec) (d2 : Device) (b : Bool)
    (h : pollEvent d rec = some (d2, b)) : pollEvent d2 rec = some (d2, b) := by
  cases rec with
  | none =>
      rw [pollEvent_none] at h
      simp only [Option.some.injEq, Prod.mk.injEq] at h
      obtain ⟨rfl, rfl⟩ := h
      rfl
  | some js =>
      simp only [pollEvent] at h ⊢
      rcases he : applyEvent d js with _ | dd <;> rw [he] at h
      · simp at h
      · simp only [Option.map_some', Option.some.injEq, Prod.mk.injEq] at h
        obtain ⟨rfl, rfl⟩ := h
        rw [applyEvent_idem d js dd he]
        rfl

/-- C1: for a calibration with abs_min < abs_max, the axis decode is
exactly 0.0 on the inner deadzone band and strictly monotonic outside
it.  Counterexample: (a) with calibration (-1000, 1000) the raw values
251 and 252 both lie outside the deadzone band (|v| < 250 around
midpoint 0) yet both decode to exactly 0.0, so the decode is not
strictly monotonic outside the band; (b) with the admissible
calibration (3, 4) the decode of the exact midpoint 3 divides by zero
(a panic, modelled as none) instead of returning 0.0; (c) with the i32
calibration (-100000000, 100000000) the product value * 127 overflows
i32 between raw 41909320 and 41909321: a release build wraps and
decodes 28/127 then -28/127 (a debug build panics), both raw values
outside the band, so the decode is not even weakly monotonic there. -/
theorem C1_counterexample :
    transform (-1000) 1000 251 = some 0 ∧ transform (-1000) 1000 252 = some 0 ∧
    ¬ inDeadBand (-1000) 1000 251 ∧ ¬ inDeadBand (-1000) 1000 252 ∧
    (251 : Int) ≠ 252 ∧ midpointOf 3 4 = 3 ∧ transform 3 4 3 = none ∧
    transform (-100000000) 100000000 41909320 = some (28 / 127) ∧
    transform (-100000000) 100000000 41909321 = some (-(28 / 127)) ∧
    ¬ inDeadBand (-100000000) 100000000 41909320 ∧
    ¬ inDeadBand (-100000000) 100000000 41909321 := by
  have h1 : transformZ (-1000) 1000 251 = some 0 := by decide
  have h2 : transformZ (-1000) 1000 252 = some 0 := by decide
  have h3 : transformZ 3 4 3 = none := by decide
  have h4 : transformZ (-100000000) 100000000 41909320 = some 28 := by decide
  have h5 : transformZ (-100000000) 100000000 41909321 = some (-28) := by decide
  refine ⟨?_, ?_, by decide, by decide, by decide, by decide, ?_, ?_, ?_,
    by decide, by decide⟩
  · unfold transform
    rw [h1]
    norm_num
  · unfold transform
    rw [h2]
    norm_num
  · unfold transform
    rw [h3]
    rfl
  · unfold transform
    rw [h4]
    norm_num
  · unfold transform
    rw [h5]
    norm_num

/-- C1 (amended): for every calibration within the i32-safe window
[-2^22, 2^22] with abs_max - abs_min at least 2 (so the rescale divisor
is nonzero and no i32 intermediate overflows), the axis decode returns
exactly 0.0 for every raw value strictly inside the deadzone band
(centered value within (-deadz, deadz), deadz = ((max - min) / 2) / 4),
in particular at the exact midpoint, and the decode is weakly monotonic
(non-decreasing) for raw values within [-2^23, 2^23]; strict
monotonicity fails because of integer division, a width-1 range panics
with a zero divisor, and outside those windows the i32 product
value * 127 overflows (panic in debug, non-monotone wrap in
release). -/
theorem C1_deadzone_monotone (mn mx : Int) (hlo : -4194304 ≤ mn)
    (hhi : mx ≤ 4194304) (h2 : mn + 2 ≤ mx) :
    (∀ val : Int, inDeadBand mn mx val → transform mn mx val = some 0) ∧
    transform mn mx (midpointOf mn mx) = some 0 ∧
    (∀ v1 v2 : Int, -8388608 ≤ v1 → v2 ≤ 8388608 → v1 ≤ v2 →
      ∀ q1 q2 : ℚ, transform mn mx v1 = some q1 →
      transform mn mx v2 = some q2 → q1 ≤ q2) := by
  refine ⟨fun val hband =>
      transform_band mn mx val hlo hhi h2 (le_of_lt hband.1) (le_of_lt hband.2),
    ?_, fun v1 v2 hv1 hv2 h q1 q2 e1 e2 =>
      transform_mono mn mx v1 v2 hlo hhi h2 hv1 hv2 h q1 q2 e1 e2⟩
  exact transform_band mn mx (midpointOf mn mx) hlo hhi h2 (by omega) (by omega)

/-- C1 witness: the calibration (-100, 100) satisfies the hypothesis and
the raw value 0 lies in the deadzone band and decodes to exactly 0. -/
theorem C1_witness : (-100 : Int) + 2 ≤ 100 ∧ transform (-100) 100 0 = some 0 :=
  ⟨by decide, (C1_deadzone_monotone (-100) 100 (by decide) (by decide)
    (by decide)).1 0 (by decide)⟩

/-- C2 counterexample: (a) with the admissible calibration (5, 6) (so
abs_min < abs_max), decoding the raw value 6 = abs_max divides by zero
(the rescaling divisor full = halfr - deadz is 0), a panic modelled as
none, rather than returning the claimed 1.0; (b) with the i32
calibration (-100000000, 100000000), decoding abs_max computes
75000000 * 127 which overflows i32: a release build wraps and decodes
12/127 (a debug build panics), not 1.0. -/
theorem C2_counterexample :
    transform 5 6 6 = none ∧
    transform (-100000000) 100000000 100000000 = some (12 / 127) ∧
    (12 : ℚ) / 127 ≠ 1 := by
  have h : transformZ 5 6 6 = none := by decide
  have h2 : transformZ (-100000000) 100000000 100000000 = some 12 := by decide
  refine ⟨?_, ?_, by norm_num⟩
  · unfold transform
    rw [h]
    rfl
  · unfold transform
    rw [h2]
    norm_num

/-- C2 (amended): for every calibration within the i32-safe window
[-2^22, 2^22] with abs_max - abs_min at least 2, the axis decode of
abs_min is exactly -1.0 and of abs_max exactly 1.0, every decoded value
(for any raw input whatsoever, also outside the calibrated range) is
clamped to [-1.0, 1.0], and a device with that calibration and no
GameCube quirk decodes a raw record on the primary X code (0) carrying
abs_max to a stored joyx of exactly 1.0.  A width-1 range panics with a
zero divisor, and calibrations outside the window overflow value * 127
(panic in debug, a wrapped non-endpoint value in release). -/
theorem C2_range_extremes (mn mx : Int) (hlo : -4194304 ≤ mn)
    (hhi : mx ≤ 4194304) (h2 : mn + 2 ≤ mx) :
    transform mn mx mn = some (-1) ∧ transform mn mx mx = some 1 ∧
    (∀ val q, transform mn mx val = some q → -1 ≤ q ∧ q ≤ 1) ∧
    (∀ d : Device, d.hardware_id ≠ gcId → d.abs_min = mn → d.abs_max = mx →
      applyEvent d (EventRec.mk 3 0 mx) = some { d with joyx := 1 }) := by
  refine ⟨transform_min mn mx hlo hhi h2, transform_max mn mx hlo hhi h2,
    fun val q e => transform_bounds mn mx val q e, ?_⟩
  intro d hgc hmn hmx
  have hv : axisValue d mx = some 1 := by
    unfold axisValue
    rw [if_neg hgc, hmn, hmx]
    exact transform_max mn mx hlo hhi h2
  obtain ⟨q2, hq2⟩ : ∃ q, axisValue2 d mx = some q := by
    unfold axisValue2
    rw [if_neg hgc]
    exact transform2_isSome 0 127 mx (by norm_num) (by norm_num)
  unfold applyEvent
  norm_num
  rw [hv, hq2]
  show some (axisApply d 0 mx 1 q2) = some { d with joyx := 1 }
  simp [axisApply]

/-- C2 witness: with the calibration (-100, 100) of the spec scenario,
the raw value 100 = abs_max decodes to exactly 1.0. -/
theorem C2_witness : transform (-100) 100 100 = some 1 :=
  (C2_range_extremes (-100) 100 (by decide) (by decide) (by decide)).2.1

theorem transform2_100 : transform2 0 127 100 = some ((200 : ℚ) / 255) := by
  have h : transform2Z 0 127 100 = some 200 := by decide
  unfold transform2
  rw [h]
  rfl

theorem trigger_arm_L (d : Device) (hgc : d.hardware_id ≠ gcId) (val : Int)
    (d2 : Device) (h : applyEvent d (EventRec.mk 3 2 val) = some d2) :
    ∃ q, transform2 0 127 val = some q ∧
      d2 = { (editBtn (decide ((99 : ℚ) / 100 < q)) d Btn.L) with trgl := q } := by
  unfold applyEvent at h
  norm_num at h
  rcases e1 : axisValue d val with _ | v <;> rw [e1] at h
  · simp at h
  rcases e2 : axisValue2 d val with _ | q <;> rw [e2] at h
  · simp at h
  simp only [Option.some.injEq] at h
  refine ⟨q, ?_, ?_⟩
  · unfold axisValue2 at e2
    rw [if_neg hgc] at e2
    exact e2
  · rw [← h]
    simp [axisApply, axisWild, camLrtMap, hgc]

theorem trigger_arm_R (d : Device) (hgc : d.hardware_id ≠ gcId) (val : Int)
    (d2 : Device) (h : applyEvent d (EventRec.mk 3 5 val) = some d2) :
    ∃ q, transform2 0 127 val = some q ∧
      d2 = { (editBtn (decide ((99 : ℚ) / 100 < q)) d Btn.R) with trgr := q } := by
  unfold applyEvent at h
  norm_num at h
  rcases e1 : axisValue d val with _ | v <;> rw [e1] at h
  · simp at h
  rcases e2 : axisValue2 d val with _ | q <;> rw [e2] at h
  · simp at h
  simp only [Option.some.injEq] at h
  refine ⟨q, ?_, ?_⟩
  · unfold axisValue2 at e2
    rw [if_neg hgc] at e2
    exact e2
  · rw [← h]
    simp [axisApply, axisWild, camLrtMap, hgc]

theorem testBit_editBtn_self (is : Bool) (d : Device) (b : Btn) :
    (editBtn is d b).btns.testBit b.code = is := by
  unfold editBtn
  rw [testBit_applyBit b.code (btnCode_lt b)]
  simp [btnCode_lt b]

/-- C3 counterexample: (a) the trigger transform does not map the raw
range of the device linearly onto [0, 1]: the test device has
calibration (-100, 100), yet decoding the raw trigger value
100 = abs_max on the left-trigger code 2 stores 200/255, not 1.0,
because transform2 is called with the fixed constants (0, 127) and not
with the calibration of the device; (b) over all raw values the decode
is not monotonic either: the i32 product val * 255 overflows between
8421504 and 8421505, a release build wraps and decodes 1.0 then 0.0 (a
debug build panics). -/
theorem C3_counterexample :
    testDev.abs_max = 100 ∧
    applyEvent testDev (EventRec.mk 3 2 100) =
      some { testDev with trgl := (200 : ℚ) / 255 } ∧
    (200 : ℚ) / 255 ≠ 1 ∧
    transform2 0 127 8421504 = some 1 ∧ transform2 0 127 8421505 = some 0 ∧
    (8421504 : Int) < 8421505 := by
  have hz1 : transform2Z 0 127 8421504 = some 255 := by decide
  have hz2 : transform2Z 0 127 8421505 = some 0 := by decide
  refine ⟨rfl, ?_, by norm_num, ?_, ?_, by decide⟩
  · have hv : axisValue testDev (EventRec.mk 3 2 100).ev_value = some 1 := by
      unfold axisValue
      rw [if_neg (by decide : ¬testDev.hardware_id = gcId)]
      exact transform_max (-100) 100 (by decide) (by decide) (by decide)
    have hv2 : axisValue2 testDev (EventRec.mk 3 2 100).ev_value
        = some ((200 : ℚ) / 255) := by
      unfold axisValue2
      rw [if_neg (by decide : ¬testDev.hardware_id = gcId)]
      exact transform2_100
    unfold applyEvent
    rw [if_neg (by decide : ¬(EventRec.mk 3 2 100).ev_type = 1),
      if_pos (by decide : (EventRec.mk 3 2 100).ev_type = 3), hv, hv2]
    show some (axisApply testDev 2 100 1 ((200 : ℚ) / 255)) =
      some { testDev with trgl := (200 : ℚ) / 255 }
    have hq : ¬((99 : ℚ) / 100 < (200 : ℚ) / 255) := by norm_num
    simp [axisApply, axisWild, camLrtMap, gcId, testDev, freshDevice, editBtn,
      applyBit, hq]
  · unfold transform2
    rw [hz1]
    norm_num
  · unfold transform2
    rw [hz2]
    norm_num

/-- C3 (amended): the trigger transform uses the fixed raw range
(0, 127) for every non-GameCube device, not the recorded calibration;
over that fixed transform every decoded value lies in [0, 1], the
decode is weakly monotonic for raw values within the i32-safe window
[-2^23, 2^23] (outside it val * 255 overflows: panic in debug, a
non-monotone wrap in release), and after decoding a record on the left
(code 2) or right (code 5) trigger axis of a non-GameCube device, the
stored trigger value is the transform2 output and the L (bit 8)
respectively R (bit 9) button bit is set if and only if that decoded
value exceeds 0.99. -/
theorem C3_trigger_contract :
    (∀ val q, transform2 0 127 val = some q → 0 ≤ q ∧ q ≤ 1) ∧
    (∀ v1 v2 q1 q2, -8388608 ≤ v1 → v2 ≤ 8388608 → v1 ≤ v2 →
      transform2 0 127 v1 = some q1 → transform2 0 127 v2 = some q2 →
      q1 ≤ q2) ∧
    (∀ d : Device, d.hardware_id ≠ gcId → ∀ val d2,
      applyEvent d (EventRec.mk 3 2 val) = some d2 →
      ∃ q, transform2 0 127 val = some q ∧ d2.trgl = q ∧
        (d2.btns.testBit 8 = true ↔ (99 : ℚ) / 100 < q)) ∧
    (∀ d : Device, d.hardware_id ≠ gcId → ∀ val d2,
      applyEvent d (EventRec.mk 3 5 val) = some d2 →
      ∃ q, transform2 0 127 val = some q ∧ d2.trgr = q ∧
        (d2.btns.testBit 9 = true ↔ (99 : ℚ) / 100 < q)) := by
  refine ⟨fun val q e => transform2_bounds 0 127 val q e,
    fun v1 v2 q1 q2 hv1 hv2 h e1 e2 => transform2_mono 0 127 v1 v2 (by norm_num)
      (by norm_num) hv1 hv2 h q1 q2 e1 e2,
    ?_, ?_⟩
  · intro d hgc val d2 h
    obtain ⟨q, hq, rfl⟩ := trigger_arm_L d hgc val d2 h
    refine ⟨q, hq, rfl, ?_⟩
    have hb : ({ (editBtn (decide ((99 : ℚ) / 100 < q)) d Btn.L) with
        trgl := q }).btns.testBit 8 = decide ((99 : ℚ) / 100 < q) :=
      testBit_editBtn_self (decide ((99 : ℚ) / 100 < q)) d Btn.L
    rw [hb]
    simp
  · intro d hgc val d2 h
    obtain ⟨q, hq, rfl⟩ := trigger_arm_R d hgc val d2 h
    refine ⟨q, hq, rfl, ?_⟩
    have hb : ({ (editBtn (decide ((99 : ℚ) / 100 < q)) d Btn.R) with
        trgr := q }).btns.testBit 9 = decide ((99 : ℚ) / 100 < q) :=
      testBit_editBtn_self (decide ((99 : ℚ) / 100 < q)) d Btn.R
    rw [hb]
    simp

/-- C3 witness: the decoded trigger value 200/255 of raw 100 lies in
[0, 1], by the bounds clause applied at that concrete input. -/
theorem C3_witness : 0 ≤ (200 : ℚ) / 255 ∧ (200 : ℚ) / 255 ≤ 1 :=
  C3_trigger_contract.1 100 ((200 : ℚ) / 255) transform2_100

/-- C4 witness: the invariant holds at the freshly created slot of the
test calibration, reachable by the base constructor. -/
theorem C4_witness : InBounds (freshDevice 0 (-100) 100) :=
  C4_reachable_inBounds (freshDevice 0 (-100) 100) (Reachable.base 0 (-100) 100)

/-- C5 witness: a press of the key record with code 0x125 (logical R)
sets bit 9 from the fresh test device, and decoding the same record
again from the resulting state is a no-op on it. -/
theorem C5_witness :
    pollEvent testDev (some (EventRec.mk 1 293 1)) =
      some ({ testDev with btns := 512 }, true) ∧
    pollEvent { testDev with btns := 512 } (some (EventRec.mk 1 293 1)) =
      some ({ testDev with btns := 512 }, true) := by
  have h1 : pollEvent testDev (some (EventRec.mk 1 293 1)) =
      some ({ testDev with btns := 512 }, true) := rfl
  exact ⟨h1, C5_poll_idempotent testDev (some (EventRec.mk 1 293 1))
    { testDev with btns := 512 } true h1⟩

/-- C6: swapping two in-range slots twice in succession restores the
whole registry exactly, the contents of both slots with all live state
included. -/
theorem C6_swap_involutive (p : Port) (a b : Nat) (ha : a < CONTROLLER_MAX)
    (hb : b < CONTROLLER_MAX) :
    (Port.swapSlots p a b).bind (fun p2 => Port.swapSlots p2 a b) = some p := by
  unfold Port.swapSlots
  rw [dif_pos ha, dif_pos hb]
  show Port.swapSlots _ a b = some p
  unfold Port.swapSlots
  rw [dif_pos ha, dif_pos hb]
  have hc : (fun i =>
      if i = (⟨a, ha⟩ : Fin CONTROLLER_MAX) then
        (fun j => if j = (⟨a, ha⟩ : Fin CONTROLLER_MAX) then p.controllers ⟨b, hb⟩
          else if j = ⟨b, hb⟩ then p.controllers ⟨a, ha⟩ else p.controllers j) ⟨b, hb⟩
      else if i = ⟨b, hb⟩ then
        (fun j => if j = (⟨a, ha⟩ : Fin CONTROLLER_MAX) then p.controllers ⟨b, hb⟩
          else if j = ⟨b, hb⟩ then p.controllers ⟨a, ha⟩ else p.controllers j) ⟨a, ha⟩
      else
        (fun j => if j = (⟨a, ha⟩ : Fin CONTROLLER_MAX) then p.controllers ⟨b, hb⟩
          else if j = ⟨b, hb⟩ then p.controllers ⟨a, ha⟩ else p.controllers j) i)
      = p.controllers := by
    funext i
    by_cases h1 : i = (⟨a, ha⟩ : Fin CONTROLLER_MAX) <;>
      by_cases h2 : i = (⟨b, hb⟩ : Fin CONTROLLER_MAX) <;>
      simp [h1, h2] <;> simp_all
  rw [hc]

/-- C6 witness: the double swap of slots 0 and 1 of the test registry
returns it unchanged. -/
theorem C6_witness :
    (Port.swapSlots testPort 0 1).bind (fun p2 => Port.swapSlots p2 0 1) =
      some testPort :=
  C6_swap_involutive testPort 0 1 (by decide) (by decide)

/-- C7 counterexample: the get operation does not return the graceful
absence some none for an out-of-range index; the index 64 makes
`self.controllers[stick as usize]` panic on the bounds check (modelled
by the outer none), so the caller never receives an Option-style
absence for an out-of-range slot. -/
theorem C7_counterexample :
    Port.getSlot testPort 64 = none ∧ Port.getSlot testPort 64 ≠ some none := by
  have h : Port.getSlot testPort 64 = none := by
    unfold Port.getSlot
    rw [dif_neg (by decide : ¬(64 < CONTROLLER_MAX))]
  refine ⟨h, ?_⟩
  rw [h]
  simp

/-- C7 (amended): for an in-range index the get operation returns a
view of the slot when the presence flag is set and the Option-style
absence some none when the slot is vacant; an out-of-range index
(at least 64) is a bounds-check panic (outer none), with no
out-of-bounds memory access, rather than a returned absence. -/
theorem C7_get_behavior (p : Port) (stick : Nat) :
    (∀ h : stick < CONTROLLER_MAX, (p.controllers ⟨stick, h⟩).plug = true →
      Port.getSlot p stick = some (some (p.controllers ⟨stick, h⟩))) ∧
    (∀ h : stick < CONTROLLER_MAX, (p.controllers ⟨stick, h⟩).plug = false →
      Port.getSlot p stick = some none) ∧
    (CONTROLLER_MAX ≤ stick → Port.getSlot p stick = none) := by
  refine ⟨?_, ?_, ?_⟩
  · intro h hp
    unfold Port.getSlot
    rw [dif_pos h, if_pos hp]
  · intro h hp
    unfold Port.getSlot
    rw [dif_pos h, if_neg (by rw [hp]; exact Bool.false_ne_true)]
  · intro h
    unfold Port.getSlot
    rw [dif_neg (by omega)]

/-- C7 witness: slot 0 of the test registry is present and get returns
its view. -/
theorem C7_witness : Port.getSlot testPort 0 = some (some testDev) :=
  (C7_get_behavior testPort 0).1 (by decide) rfl

/-- C8: the code never clears the presence flag on removal.  A
directory notification whose mask is the deletion bit is discarded by
inotify_read2 (mask 0x200 is not 0x100), for any name match, open
outcome and slot, so no removal is ever reported through the watch; and
the implicit-removal branch of Port::input decrements the live count
and releases the manager entry but leaves Device.plug true, so a
subsequent get on that slot still returns the stale device instead of
absence.  This contradicts the documented meaning of the plug field and
the spec lifecycle, so the claim is right and the code wrong. -/
theorem C8_removal_behavior (p : Port) (i : Fin CONTROLLER_MAX)
    (hplug : (p.controllers i).plug = true) :
    (∀ (ms ok : Bool) (sl : Nat), inotifyReadResult ms IN_DELETE ok sl = none) ∧
    (Port.inputRemoval p).count = p.count - 1 ∧
    ((Port.inputRemoval p).controllers i).plug = true ∧
    Port.getSlot (Port.inputRemoval p) i = some (some (p.controllers i)) := by
  refine ⟨?_, rfl, hplug, ?_⟩
  · intro ms ok sl
    unfold inotifyReadResult
    rw [if_pos]
    right
    decide
  · unfold Port.getSlot Port.inputRemoval
    rw [dif_pos i.isLt]
    simp only [Fin.eta]
    rw [if_pos hplug]

/-- C8 witness: at slot 0 of the test registry, the deletion
notification is discarded and after the implicit removal get still
returns the device. -/
theorem C8_witness :
    inotifyReadResult true IN_DELETE true 0 = none ∧
    Port.getSlot (Port.inputRemoval testPort) 0 = some (some testDev) := by
  have h := C8_removal_behavior testPort ⟨0, by decide⟩ rfl
  exact ⟨h.1 true true 0, h.2.2.2⟩

/-- C9 counterexample: a complete record whose event class 2 is neither
a key nor an abs event is unrecognized, leaves the state untouched, and
the decoder still returns true, not the claimed false. -/
theorem C9_counterexample :
    pollEvent testDev (some (EventRec.mk 2 0 0)) = some (testDev, true) := rfl

/-- C9 (amended): the decoder returns false exactly for a malformed
(short) read, which leaves the device state completely unchanged; every
completely read record returns true, also when its event class or code
is unrecognized and nothing was applied. -/
theorem C9_return_contract (d : Device) :
    pollEvent d none = some (d, false) ∧
    (∀ js : EventRec, ∀ d2 b, pollEvent d (some js) = some (d2, b) → b = true) ∧
    (∀ js : EventRec, js.ev_type ≠ 1 → js.ev_type ≠ 3 →
      pollEvent d (some js) = some (d, true)) := by
  refine ⟨rfl, ?_, ?_⟩
  · intro js d2 b h
    simp only [pollEvent] at h
    rcases he : applyEvent d js with _ | dd <;> rw [he] at h
    · simp at h
    · simp only [Option.map_some', Option.some.injEq, Prod.mk.injEq] at h
      exact h.2.symm
  · intro js h1 h3
    simp only [pollEvent]
    unfold applyEvent
    rw [if_neg h1, if_neg h3]
    rfl

/-- C9 witness: the short read on the test device returns false and
leaves it unchanged. -/
theorem C9_witness : pollEvent testDev none = some (testDev, false) :=
  (C9_return_contract testDev).1

/-- C10: the camera-stick getter returns None exactly for the flight
controller hardware id 0x07B50316 and a Some view of the camera cells
for every other id, while the joystick and trigger getters return Some
for every device. -/
theorem C10_getters (d : Device) :
    (Device.cam d = none ↔ d.hardware_id = flightId) ∧
    (d.hardware_id ≠ flightId → Device.cam d = some (d.camx, d.camy)) ∧
    Device.joy d = some (d.joyx, d.joyy) ∧
    Device.lrt d = some (d.trgl, d.trgr) := by
  refine ⟨?_, ?_, rfl, rfl⟩
  · unfold Device.cam
    split_ifs with h <;> simp [h]
  · intro h
    unfold Device.cam
    rw [if_neg h]

/-- C10 witness: a device with the flight-controller id has no camera
stick, and the test device keeps its camera getter. -/
theorem C10_witness :
    Device.cam (freshDevice flightId 0 0) = none ∧
    Device.cam testDev = some (testDev.camx, testDev.camy) :=
  ⟨(C10_getters (freshDevice flightId 0 0)).1.mpr rfl,
    (C10_getters testDev).2.1 (by decide)⟩
